import Mathlib

/-!
# Verification of the pluto-translate real-time translation pipeline

This file gives a shallow embedding of the core logic of the repository:

* the transcript data model (`src/types.ts`),
* the host-side segment assembler (the `onmessage` callback),
* the receiver-side list maintenance (`handleIncomingSegment`),
* the serialized translate+speak pipeline
  (`processTranslationAndSpeech` / `checkQueue` / `stopBroadcasting`,
  the variant with `ttsQueueRef` and quota retry),
* the playback scheduler (the `nextStartTimeRef` / `sourcesRef` bookkeeping).

Embedding conventions:

* React `useState` setters and `useRef` cells are modelled as fields of an
  explicit state record, updated synchronously at the program point where the
  setter is called (the single-threaded event-loop idealization of the
  design: reads of `isProcessingTTS` etc. see the most recent write).
* Each `await` of an external call is a suspension point; the code between
  two suspension points runs atomically.  External completions (the
  translate+synthesize response, the 10-second backoff timer, a buffer's
  `ended` event) are delivered as explicit events of a step function.
* JavaScript numbers used as audio-clock times are modelled as rationals;
  `Date.now()` timestamps as naturals.
-/

/-- JavaScript's `String.prototype.trim()`: remove leading and trailing
whitespace.  (Modelled over the character list so that it evaluates by
kernel reduction; Lean's own `String.trim` is extensionally the same on the
inputs used here but does not reduce.) -/
def jsTrim (s : String) : String :=
  ⟨((s.data.dropWhile Char.isWhitespace).reverse.dropWhile
      Char.isWhitespace).reverse⟩

/-- `TranscriptionSegment` from `src/types.ts`. -/
structure TranscriptionSegment where
  id : String
  text : String
  timestamp : Nat
  speaker : String
  isFinal : Bool
  classId : String
deriving DecidableEq, Repr

/-- Number of live-sentinel entries (`id = "live-seg"`) in a segment list. -/
def countLive (l : List TranscriptionSegment) : Nat :=
  l.countP (fun s => s.id == "live-seg")

/-- The host's `setTranscriptions` updater in `onmessage` (both the partial
and the turn-complete branch): drop any `'live-seg'` entry, append the new
segment.  `prev.filter(p => p.id !== 'live-seg')` followed by
`[...filtered, segment]`. -/
def hostApplySegment (prev : List TranscriptionSegment)
    (seg : TranscriptionSegment) : List TranscriptionSegment :=
  prev.filter (fun p => p.id != "live-seg") ++ [seg]

/-- `Array.prototype.slice(-n)`: the last `n` elements of a list. -/
def lastN (n : Nat) (l : List α) : List α :=
  l.drop (l.length - n)

/-- The receiver's `setTranscriptions` updater in `handleIncomingSegment`:
`prev.filter(s => s.id !== segment.id && (segment.isFinal || s.id !== 'live-seg'))`
then append `segment`, then `slice(-50)`. -/
def handleIncomingSegmentList (prev : List TranscriptionSegment)
    (seg : TranscriptionSegment) : List TranscriptionSegment :=
  lastN 50
    ((prev.filter
        (fun s => s.id != seg.id && (seg.isFinal || s.id != "live-seg")))
      ++ [seg])

/-! ## Segment assembler (host `onmessage`) -/

/-- The two `serverContent` events the host's `onmessage` handler consumes:
an incremental `inputTranscription` text delta, and `turnComplete`. -/
inductive LiveMsg
  | textDelta (delta : String)
  | turnComplete
deriving DecidableEq, Repr

/-- Host-side assembler state: `currentChunkRef`, the maintained
`transcriptions` list, and the log of segments handed to
`broadcastTranscription` (in emission order). -/
structure AsmState where
  currentChunk : String
  transcriptions : List TranscriptionSegment
  broadcasts : List TranscriptionSegment
deriving DecidableEq, Repr

/-- One step of the host's `onmessage` handler.
On a text delta: `currentChunkRef.current += text`, emit a non-final segment
with the sentinel id `"live-seg"` carrying the whole accumulated chunk.
On `turnComplete`: emit a final segment with id `"final-" ++ now` carrying
the accumulated chunk, then clear the chunk. -/
def onmessageStep (classId : String) (s : AsmState) (m : LiveMsg)
    (now : Nat) : AsmState :=
  match m with
  | .textDelta d =>
      let chunk := s.currentChunk ++ d
      let seg : TranscriptionSegment :=
        ⟨"live-seg", chunk, now, "user", false, classId⟩
      { currentChunk := chunk
        transcriptions := hostApplySegment s.transcriptions seg
        broadcasts := s.broadcasts ++ [seg] }
  | .turnComplete =>
      let seg : TranscriptionSegment :=
        ⟨"final-" ++ toString now, s.currentChunk, now, "user", true, classId⟩
      { currentChunk := ""
        transcriptions := hostApplySegment s.transcriptions seg
        broadcasts := s.broadcasts ++ [seg] }

/-- Run the assembler over a list of timestamped events. -/
def asmRun (classId : String) (s : AsmState)
    (evs : List (LiveMsg × Nat)) : AsmState :=
  evs.foldl (fun st e => onmessageStep classId st e.1 e.2) s

/-- Initial assembler state: empty chunk, no segments, nothing broadcast. -/
def asmInit : AsmState := ⟨"", [], []⟩

/-! ## The receiver translate+speak pipeline

Embeds `processTranslationAndSpeech` (the variant taking `retryCount`),
`checkQueue`, `handleIncomingSegment` and `stopBroadcasting` as a state
machine over explicit completion events.  `started` is a log of synthesis
invocations (the points where the `await ai.models.generateContent(...)`
request is issued), in issue order, together with their `retryCount`. -/

/-- Outcome of one translate+synthesize call, as classified by the code:
audio data present, no audio data (`else { checkQueue(); }`), a quota error
(`message includes '429' || status === 'RESOURCE_EXHAUSTED'`), or any other
error. -/
inductive SynthOutcome
  | audio
  | noAudio
  | quotaErr
  | otherErr
deriving DecidableEq, Repr

/-- Pipeline state.
`busy` is `isProcessingTTS`; `queue` is `ttsQueueRef.current`;
`inflight` holds the issued-but-unanswered synthesize calls
`(callId, text, retryCount)`; `timers` the pending quota-backoff
callbacks `(text, retryCount, delayMs)`; `playing` the members of
`sourcesRef.current` whose `ended` event has not fired yet;
`started` the log of issued synthesize calls; `transcripts` the
receiver's `transcriptions` list. -/
structure PipeState where
  busy : Bool
  queue : List String
  inflight : List (Nat × String × Nat)
  timers : List (String × Nat × Nat)
  playing : List Nat
  nextId : Nat
  started : List (String × Nat)
  transcripts : List TranscriptionSegment
deriving DecidableEq, Repr

/-- `const waitTime = 10000;` — the fixed quota backoff in milliseconds. -/
def quotaBackoffMs : Nat := 10000

/-- The synchronous prefix of `processTranslationAndSpeech(originalText,
retryCount)` up to its first `await`: if `isProcessingTTS && retryCount === 0`
push the text onto `ttsQueueRef` and return; otherwise set
`isProcessingTTS = true` and issue the translate+synthesize request. -/
def processTranslationAndSpeech (s : PipeState) (originalText : String)
    (retryCount : Nat) : PipeState :=
  if s.busy = true ∧ retryCount = 0 then
    { s with queue := s.queue ++ [originalText] }
  else
    { s with
        busy := true
        inflight := s.inflight ++ [(s.nextId, originalText, retryCount)]
        started := s.started ++ [(originalText, retryCount)]
        nextId := s.nextId + 1 }

/-- `checkQueue`: if `ttsQueueRef.current` is non-empty, `shift()` the head
and, when it is truthy (a non-empty string), call
`processTranslationAndSpeech` on it with `retryCount = 0`. -/
def checkQueue (s : PipeState) : PipeState :=
  match s.queue with
  | [] => s
  | h :: rest =>
      if h = "" then { s with queue := rest }
      else processTranslationAndSpeech { s with queue := rest } h 0

/-- Look up an in-flight call by its id. -/
def findInflight (l : List (Nat × String × Nat)) (i : Nat) :
    Option (String × Nat) :=
  match l with
  | [] => none
  | (j, t, rc) :: rest => if j = i then some (t, rc) else findInflight rest i

/-- The continuation of `processTranslationAndSpeech` run when the
translate+synthesize call with id `i` completes with outcome `o`:
- audio data: schedule the buffer (its `ended` callback pending — the
  playback-time bookkeeping is modelled separately by `Player`);
- no audio data: `checkQueue()` (still inside the `try`, so before the
  `finally`);
- quota error: install the `setTimeout(..., waitTime)` retry of the same
  text with `retryCount + 1`;
- other error: log it and `checkQueue()`.
In every case the `finally` block then runs `setIsProcessingTTS(false)`. -/
def respondStep (s : PipeState) (i : Nat) (o : SynthOutcome) : PipeState :=
  match findInflight s.inflight i with
  | none => s
  | some (t, rc) =>
      let s1 := { s with inflight := s.inflight.filter (fun e => e.1 != i) }
      let s2 :=
        match o with
        | .audio => { s1 with playing := s1.playing ++ [i] }
        | .noAudio => checkQueue s1
        | .quotaErr =>
            { s1 with timers := s1.timers ++ [(t, rc + 1, quotaBackoffMs)] }
        | .otherErr => checkQueue s1
      { s2 with busy := false }

/-- The quota-backoff `setTimeout` callback with index `j` fires:
`setQuotaWait(0)` then `processTranslationAndSpeech(originalText,
retryCount + 1)` (the stored `retryCount` is already the incremented one). -/
def fireTimerStep (s : PipeState) (j : Nat) : PipeState :=
  match s.timers[j]? with
  | none => s
  | some (t, rc, _) =>
      processTranslationAndSpeech { s with timers := s.timers.eraseIdx j } t rc

/-- The `ended` listener of the audio source `i`:
`sourcesRef.current.delete(audioSource); checkQueue();`. -/
def endedStep (s : PipeState) (i : Nat) : PipeState :=
  if i ∈ s.playing then checkQueue { s with playing := s.playing.erase i }
  else s

/-- `handleIncomingSegment(segment)`: update the `transcriptions` list, then
`if (segment.isFinal && segment.text.trim()) processTranslationAndSpeech(segment.text)`. -/
def handleIncomingSegment (s : PipeState) (seg : TranscriptionSegment) :
    PipeState :=
  let s1 := { s with transcripts := handleIncomingSegmentList s.transcripts seg }
  if seg.isFinal = true ∧ jsTrim seg.text ≠ "" then
    processTranslationAndSpeech s1 seg.text 0
  else s1

/-- `stopBroadcasting()`: closes the input audio context and
`setTranscriptions([])`.  It touches neither `ttsQueueRef`, nor the pending
backoff timers, nor the in-flight request, nor the playing sources. -/
def stopBroadcasting (s : PipeState) : PipeState :=
  { s with transcripts := [] }

/-- The external events the pipeline reacts to. -/
inductive PipeEvent
  | submit (t : String)
  | respond (i : Nat) (o : SynthOutcome)
  | fireTimer (j : Nat)
  | ended (i : Nat)
  | recv (seg : TranscriptionSegment)
  | stop
deriving DecidableEq, Repr

/-- One pipeline step. -/
def pipeStep (s : PipeState) (e : PipeEvent) : PipeState :=
  match e with
  | .submit t => processTranslationAndSpeech s t 0
  | .respond i o => respondStep s i o
  | .fireTimer j => fireTimerStep s j
  | .ended i => endedStep s i
  | .recv seg => handleIncomingSegment s seg
  | .stop => stopBroadcasting s

/-- Run the pipeline over an event trace. -/
def pipeRun (s : PipeState) (evs : List PipeEvent) : PipeState :=
  evs.foldl pipeStep s

/-- The initial pipeline state of a fresh session. -/
def pipeInit : PipeState := ⟨false, [], [], [], [], 0, [], []⟩

/-! ## Playback scheduling (`nextStartTimeRef`, `sourcesRef`) -/

/-- Status of an audio buffer source: scheduled but not finished (a member
of the live-source set), finished naturally (`ended` fired), or stopped by
an interruption flush. -/
inductive SrcStatus
  | scheduled
  | finished
  | stopped
deriving DecidableEq, Repr

/-- The playback cursor: `nextStartTimeRef.current` and every buffer source
ever created, with its status.  `sourcesRef.current` is the set of sources
whose status is `scheduled`. -/
structure Player where
  nextStartTime : ℚ
  sources : List (Nat × SrcStatus)
deriving DecidableEq, Repr

/-- The members of `sourcesRef.current`: scheduled-but-unfinished sources. -/
def liveSources (p : Player) : List Nat :=
  (p.sources.filter (fun s => s.2 == SrcStatus.scheduled)).map Prod.fst

/-- Scheduling one decoded buffer (the audio-data branch of
`processTranslationAndSpeech`):
`nextStartTimeRef.current = Math.max(nextStartTimeRef.current, ctx.currentTime)`,
then (after the decode `await`; under the no-decode-delay premise the clock
is unchanged) `audioSource.start(nextStartTimeRef.current)` and
`nextStartTimeRef.current += buffer.duration`, adding the source to
`sourcesRef.current`.  Returns the start time and the new cursor. -/
def schedulePlay (p : Player) (clock dur : ℚ) (i : Nat) : ℚ × Player :=
  let startAt := max p.nextStartTime clock
  (startAt,
   { nextStartTime := startAt + dur
     sources := p.sources ++ [(i, SrcStatus.scheduled)] })

/-- The `ended` event of source `i`: it leaves the live-source set
(`sourcesRef.current.delete(audioSource)`). -/
def markEnded (p : Player) (i : Nat) : Player :=
  { p with
      sources := p.sources.map
        (fun s =>
          if s.1 = i ∧ s.2 = SrcStatus.scheduled then (s.1, SrcStatus.finished)
          else s) }

/-- Modelled from the spec: the interruption handler is not present in the
provided sources — only the `sourcesRef` bookkeeping it relies on is.  Per
spec §4.4, on an interruption signal: "immediately stop every buffer in
`liveSources`, clear the set, and reset `nextStartTime` to 0"; stopping an
already-stopped or already-finished buffer must not raise (stopping is a
total operation that only affects `scheduled` sources). -/
def interruptPlay (p : Player) : Player :=
  { nextStartTime := 0
    sources := p.sources.map
      (fun s =>
        if s.2 == SrcStatus.scheduled then (s.1, SrcStatus.stopped) else s) }

/-! ## The receiver translation fallback (the two-call variant) -/

/-- `const translatedText = translateResponse.text?.trim() || originalText;`
from the two-call variant of `processTranslationAndSpeech`: the trimmed
translation when it is non-empty, otherwise the original text. -/
def translatedText (respText : Option String) (originalText : String) :
    String :=
  match respText with
  | none => originalText
  | some u => if jsTrim u = "" then originalText else jsTrim u

/-! ## Helper lemmas -/

theorem foldl_append_shift (l : List String) (a : String) :
    l.foldl (fun r s => r ++ s) a = a ++ l.foldl (fun r s => r ++ s) "" := by
  induction l generalizing a with
  | nil => simp
  | cons b l ih =>
      simp only [List.foldl]
      rw [ih (a ++ b), ih ("" ++ b), String.empty_append, String.append_assoc]

theorem join_cons' (a : String) (l : List String) :
    String.join (a :: l) = a ++ String.join l := by
  simp only [String.join, List.foldl]
  rw [foldl_append_shift l ("" ++ a), String.empty_append]

theorem final_id_ne_live (n : Nat) : ("final-" ++ toString n) ≠ "live-seg" := by
  intro h
  have h2 := congrArg String.data h
  rw [String.data_append] at h2
  simp [String.data] at h2

/-- Running the assembler over text deltas only: the chunk accumulates the
concatenation of the deltas in arrival order, and no final segment is
emitted. -/
theorem asmRun_textDeltas (classId : String) (deltas : List (String × Nat))
    (s : AsmState) :
    (asmRun classId s
        (deltas.map (fun p => (LiveMsg.textDelta p.1, p.2)))).currentChunk
      = s.currentChunk ++ String.join (deltas.map Prod.fst) ∧
    ((asmRun classId s
        (deltas.map (fun p => (LiveMsg.textDelta p.1, p.2)))).broadcasts.filter
          (fun g => g.isFinal))
      = s.broadcasts.filter (fun g => g.isFinal) := by
  induction deltas generalizing s with
  | nil => simp [asmRun, String.join]
  | cons p rest ih =>
      simp only [List.map_cons, asmRun, List.foldl_cons]
      have h := ih (onmessageStep classId s (LiveMsg.textDelta p.1) p.2)
      simp only [asmRun] at h
      refine ⟨?_, ?_⟩
      · rw [h.1]
        simp only [onmessageStep, List.map_cons, join_cons', String.append_assoc]
      · rw [h.2]
        simp [onmessageStep, List.filter_append]

/-- An event that is not a quota-exhausted completion. -/
def QuotaFreeEvent (e : PipeEvent) : Bool :=
  match e with
  | .respond _ .quotaErr => false
  | _ => true

/-- A trace with no quota-exhausted completions. -/
abbrev QuotaFree (evs : List PipeEvent) : Prop :=
  ∀ e ∈ evs, QuotaFreeEvent e = true

/-- The serialization invariant: at most one in-flight request, the busy
flag is set exactly while a request is in flight, and no backoff timer is
pending. -/
def PipeInv (s : PipeState) : Prop :=
  s.inflight.length ≤ 1 ∧ (s.busy = true ↔ s.inflight ≠ []) ∧ s.timers = []

theorem pipeInv_processTAS (s : PipeState) (t : String) (h : PipeInv s) :
    PipeInv (processTranslationAndSpeech s t 0) := by
  obtain ⟨h1, h2, h3⟩ := h
  unfold processTranslationAndSpeech
  by_cases hb : s.busy = true
  · rw [if_pos ⟨hb, rfl⟩]
    exact ⟨h1, h2, h3⟩
  · rw [if_neg (fun hc => hb hc.1)]
    have hnil : s.inflight = [] := by
      by_contra hne
      exact hb (h2.mpr hne)
    refine ⟨?_, ?_, h3⟩
    · simp [hnil]
    · simp [hnil]

theorem pipeInv_checkQueue (s : PipeState) (h : PipeInv s) :
    PipeInv (checkQueue s) := by
  cases hq : s.queue with
  | nil => simpa [checkQueue, hq] using h
  | cons a rest =>
      by_cases he : a = ""
      · simp only [checkQueue, hq, if_pos he]
        exact ⟨h.1, h.2.1, h.2.2⟩
      · simp only [checkQueue, hq, if_neg he]
        exact pipeInv_processTAS _ _ ⟨h.1, h.2.1, h.2.2⟩

theorem checkQueue_busy (s : PipeState) (hb : s.busy = true) :
    (checkQueue s).busy = true ∧ (checkQueue s).inflight = s.inflight ∧
    (checkQueue s).timers = s.timers := by
  cases hq : s.queue with
  | nil => simp [checkQueue, hq, hb]
  | cons a rest =>
      by_cases he : a = "" <;>
        simp [checkQueue, hq, he, processTranslationAndSpeech, hb]

theorem removeInflight_nil (l : List (Nat × String × Nat)) (i : Nat)
    (hlen : l.length ≤ 1) (x : String × Nat)
    (hf : findInflight l i = some x) :
    l.filter (fun e => e.1 != i) = [] := by
  match l with
  | [] => simp [findInflight] at hf
  | [a] =>
      obtain ⟨j, t, rc⟩ := a
      by_cases hj : j = i
      · simp [hj]
      · simp [findInflight, hj] at hf
  | a :: b :: rest => simp at hlen

theorem findInflight_ne_nil (l : List (Nat × String × Nat)) (i : Nat)
    (x : String × Nat) (hf : findInflight l i = some x) : l ≠ [] := by
  intro hl
  rw [hl] at hf
  simp [findInflight] at hf

theorem pipeInv_step (s : PipeState) (e : PipeEvent) (h : PipeInv s)
    (hq : QuotaFreeEvent e = true) : PipeInv (pipeStep s e) := by
  cases e with
  | submit t => exact pipeInv_processTAS s t h
  | respond i o =>
      simp only [pipeStep, respondStep]
      cases hf : findInflight s.inflight i with
      | none => exact h
      | some x =>
          obtain ⟨t, rc⟩ := x
          have hrem : s.inflight.filter (fun e => e.1 != i) = [] :=
            removeInflight_nil _ _ h.1 _ hf
          have hb : s.busy = true := h.2.1.mpr (findInflight_ne_nil _ _ _ hf)
          cases o with
          | audio =>
              refine ⟨?_, ?_, ?_⟩ <;> simp [hrem, h.2.2]
          | noAudio =>
              have hcb := checkQueue_busy
                { s with inflight := s.inflight.filter (fun e => e.1 != i) } hb
              rw [hrem, h.2.2] at hcb
              refine ⟨?_, ?_, ?_⟩ <;>
                simp [hrem, h.2.2, hcb.2.1, hcb.2.2]
          | quotaErr => simp [QuotaFreeEvent] at hq
          | otherErr =>
              have hcb := checkQueue_busy
                { s with inflight := s.inflight.filter (fun e => e.1 != i) } hb
              rw [hrem, h.2.2] at hcb
              refine ⟨?_, ?_, ?_⟩ <;>
                simp [hrem, h.2.2, hcb.2.1, hcb.2.2]
  | fireTimer j =>
      have : s.timers = [] := h.2.2
      simp [pipeStep, fireTimerStep, this]
      exact h
  | ended i =>
      by_cases hp : i ∈ s.playing
      · simp only [pipeStep, endedStep, if_pos hp]
        exact pipeInv_checkQueue _ ⟨h.1, h.2.1, h.2.2⟩
      · simp only [pipeStep, endedStep, if_neg hp]
        exact h
  | recv seg =>
      simp only [pipeStep, handleIncomingSegment]
      by_cases hc : seg.isFinal = true ∧ jsTrim seg.text ≠ ""
      · rw [if_pos hc]
        exact pipeInv_processTAS _ _ ⟨h.1, h.2.1, h.2.2⟩
      · rw [if_neg hc]
        exact ⟨h.1, h.2.1, h.2.2⟩
  | stop => exact h

theorem pipeInv_init : PipeInv pipeInit := by
  refine ⟨?_, ?_, ?_⟩ <;> simp [pipeInit]

theorem pipeInv_run (evs : List PipeEvent) (s : PipeState) (h : PipeInv s)
    (hq : QuotaFree evs) : PipeInv (pipeRun s evs) := by
  induction evs generalizing s with
  | nil => exact h
  | cons e rest ih =>
      exact ih (pipeStep s e) (pipeInv_step s e h (hq e (by simp)))
        (fun e' he' => hq e' (by simp [he']))

theorem asmRun_append (classId : String) (s : AsmState)
    (a b : List (LiveMsg × Nat)) :
    asmRun classId s (a ++ b) = asmRun classId (asmRun classId s a) b := by
  simp [asmRun, List.foldl_append]

/-! ## Claims -/

/-- C1 (counterexample): the claim fails as stated.  After `submit "a"`
fails with a quota error, the `finally` block has already cleared
`isProcessingTTS`, so a `submit "b"` arriving during the 10-second backoff
wait is NOT appended to the pending queue but starts processing at once;
when the backoff timer then fires, the retry of `"a"` is issued while
`"b"`'s request is still in flight: two concurrent synthesis requests. -/
theorem c1_two_inflight_counterexample :
    (pipeRun pipeInit
        [PipeEvent.submit "a", PipeEvent.respond 0 SynthOutcome.quotaErr,
         PipeEvent.submit "b", PipeEvent.fireTimer 0]).inflight.length = 2 ∧
    (pipeRun pipeInit
        [PipeEvent.submit "a", PipeEvent.respond 0 SynthOutcome.quotaErr,
         PipeEvent.submit "b"]).queue = [] := by decide

/-- C1 (amended): in every trace free of quota-exhausted completions, at
most one synthesis request is in flight at any time, and a submit that
arrives while a unit is being processed (busy flag set) only appends the
text to the pending queue. -/
theorem c1_pipeline_serialized (evs : List PipeEvent) (t : String)
    (h : QuotaFree evs) :
    (pipeRun pipeInit evs).inflight.length ≤ 1 ∧
    ((pipeRun pipeInit evs).busy = true →
      pipeStep (pipeRun pipeInit evs) (PipeEvent.submit t)
        = { pipeRun pipeInit evs with
              queue := (pipeRun pipeInit evs).queue ++ [t] }) := by
  have hinv := pipeInv_run evs pipeInit pipeInv_init h
  refine ⟨hinv.1, fun hb => ?_⟩
  simp [pipeStep, processTranslationAndSpeech, hb]

/-- C1 (witness): a concrete quota-free trace for `c1_pipeline_serialized`. -/
theorem c1_pipeline_serialized_witness :
    QuotaFree
        [PipeEvent.submit "a", PipeEvent.submit "b",
         PipeEvent.respond 0 SynthOutcome.audio, PipeEvent.ended 0] ∧
    ((pipeRun pipeInit
        [PipeEvent.submit "a", PipeEvent.submit "b",
         PipeEvent.respond 0 SynthOutcome.audio,
         PipeEvent.ended 0]).inflight.length ≤ 1 ∧
      ((pipeRun pipeInit
          [PipeEvent.submit "a", PipeEvent.submit "b",
           PipeEvent.respond 0 SynthOutcome.audio,
           PipeEvent.ended 0]).busy = true →
        pipeStep
            (pipeRun pipeInit
              [PipeEvent.submit "a", PipeEvent.submit "b",
               PipeEvent.respond 0 SynthOutcome.audio, PipeEvent.ended 0])
            (PipeEvent.submit "c")
          = { pipeRun pipeInit
                [PipeEvent.submit "a", PipeEvent.submit "b",
                 PipeEvent.respond 0 SynthOutcome.audio, PipeEvent.ended 0]
                with
                queue :=
                  (pipeRun pipeInit
                    [PipeEvent.submit "a", PipeEvent.submit "b",
                     PipeEvent.respond 0 SynthOutcome.audio,
                     PipeEvent.ended 0]).queue ++ ["c"] })) :=
  ⟨by decide, c1_pipeline_serialized _ "c" (by decide)⟩

/-- C2 (counterexample): the claim fails as stated.  `t1` fails with a
quota error; `t2` is submitted during the backoff wait and its synthesis is
issued immediately; only afterwards does the backoff timer issue `t1`'s
retry — so `t1` is not retried before the later-submitted `t2` starts. -/
theorem c2_retry_overtaken_counterexample :
    (pipeRun pipeInit
        [PipeEvent.submit "t1", PipeEvent.respond 0 SynthOutcome.quotaErr,
         PipeEvent.submit "t2", PipeEvent.fireTimer 0]).started
      = [("t1", 0), ("t2", 0), ("t1", 1)] := by decide

/-- C2 (amended): when the call for a text fails with a quota-exhausted
error, a backoff callback for the exact same text with an incremented
attempt counter and the fixed 10000 ms delay is installed; the failed unit
is neither dropped nor appended to the tail of the pending queue, and no
replacement synthesis is issued at failure time.  When a backoff callback
fires, the retry is issued unconditionally (bypassing the busy guard).
Texts submitted during the backoff window may however start first. -/
theorem c2_quota_retry_keeps_unit (s : PipeState) (i j : Nat)
    (t u : String) (rc ru d : Nat)
    (hf : findInflight s.inflight i = some (t, rc))
    (hg : s.timers[j]? = some (u, ru, d)) (hru : 1 ≤ ru) :
    (respondStep s i SynthOutcome.quotaErr).timers
        = s.timers ++ [(t, rc + 1, quotaBackoffMs)] ∧
    (respondStep s i SynthOutcome.quotaErr).queue = s.queue ∧
    (respondStep s i SynthOutcome.quotaErr).started = s.started ∧
    (fireTimerStep s j).started = s.started ++ [(u, ru)] ∧
    (fireTimerStep s j).inflight = s.inflight ++ [(s.nextId, u, ru)] := by
  refine ⟨?_, ?_, ?_, ?_, ?_⟩ <;>
    simp [respondStep, fireTimerStep, hf, hg, processTranslationAndSpeech,
      Nat.pos_iff_ne_zero.mp hru]

/-- C2 (witness): a concrete state with an in-flight unit and a pending
backoff callback for `c2_quota_retry_keeps_unit`. -/
theorem c2_quota_retry_keeps_unit_witness :
    findInflight [(0, "t1", 0)] 0 = some ("t1", 0) ∧
    [(("t0" : String), 1, 10000)][0]? = some ("t0", 1, 10000) ∧ 1 ≤ 1 ∧
    ((respondStep ⟨true, ["t2"], [(0, "t1", 0)], [("t0", 1, 10000)], [], 1,
          [], []⟩ 0 SynthOutcome.quotaErr).timers
        = [("t0", 1, 10000)] ++ [("t1", 1, quotaBackoffMs)] ∧
      (respondStep ⟨true, ["t2"], [(0, "t1", 0)], [("t0", 1, 10000)], [], 1,
          [], []⟩ 0 SynthOutcome.quotaErr).queue = ["t2"] ∧
      (respondStep ⟨true, ["t2"], [(0, "t1", 0)], [("t0", 1, 10000)], [], 1,
          [], []⟩ 0 SynthOutcome.quotaErr).started = [] ∧
      (fireTimerStep ⟨true, ["t2"], [(0, "t1", 0)], [("t0", 1, 10000)], [],
          1, [], []⟩ 0).started = [] ++ [("t0", 1)] ∧
      (fireTimerStep ⟨true, ["t2"], [(0, "t1", 0)], [("t0", 1, 10000)], [],
          1, [], []⟩ 0).inflight = [(0, "t1", 0)] ++ [(1, "t0", 1)]) :=
  ⟨by decide, by decide, by decide,
   c2_quota_retry_keeps_unit
     ⟨true, ["t2"], [(0, "t1", 0)], [("t0", 1, 10000)], [], 1, [], []⟩
     0 0 "t1" "t0" 0 1 10000 (by decide) (by decide) (by decide)⟩

/-- C3: for every sequence of partial-text events followed by exactly one
turn-complete event, the assembler emits exactly one final segment
(`isFinal = true`, fresh id distinct from the live sentinel) whose text is
the concatenation of all partial deltas in arrival order, and the
accumulation buffer is cleared afterwards. -/
theorem c3_assembler_single_final (classId : String)
    (deltas : List (String × Nat)) (tsF : Nat) :
    ((asmRun classId asmInit
        (deltas.map (fun p => (LiveMsg.textDelta p.1, p.2))
          ++ [(LiveMsg.turnComplete, tsF)])).broadcasts.filter
        (fun g => g.isFinal))
      = [⟨"final-" ++ toString tsF, String.join (deltas.map Prod.fst), tsF,
          "user", true, classId⟩] ∧
    (asmRun classId asmInit
        (deltas.map (fun p => (LiveMsg.textDelta p.1, p.2))
          ++ [(LiveMsg.turnComplete, tsF)])).currentChunk = "" ∧
    ("final-" ++ toString tsF) ≠ "live-seg" := by
  have h := asmRun_textDeltas classId deltas asmInit
  have hchunk :
      (asmRun classId asmInit
        (deltas.map (fun p => (LiveMsg.textDelta p.1, p.2)))).currentChunk
        = String.join (deltas.map Prod.fst) := by
    rw [h.1]
    exact String.empty_append _
  have hfil :
      ((asmRun classId asmInit
        (deltas.map (fun p => (LiveMsg.textDelta p.1, p.2)))).broadcasts.filter
          (fun g => g.isFinal)) = [] := by
    rw [h.2]
    rfl
  rw [asmRun_append]
  have hstep :
      asmRun classId
          (asmRun classId asmInit
            (deltas.map (fun p => (LiveMsg.textDelta p.1, p.2))))
          [(LiveMsg.turnComplete, tsF)]
        = onmessageStep classId
            (asmRun classId asmInit
              (deltas.map (fun p => (LiveMsg.textDelta p.1, p.2))))
            LiveMsg.turnComplete tsF := rfl
  rw [hstep]
  refine ⟨?_, ?_, final_id_ne_live tsF⟩
  · simp only [onmessageStep, List.filter_append, hfil, hchunk,
      List.nil_append]
    simp
  · rfl

/-- C4 (counterexample): the claim fails as stated.  When a final segment
arrives at the receiver, `handleIncomingSegment`'s filter keeps every
element whose id differs from the incoming id (the `segment.isFinal ||`
disjunct short-circuits the live-sentinel check), so the stale `'live-seg'`
entry and the final segment that finalizes it are both present. -/
theorem c4_live_and_final_coexist :
    handleIncomingSegmentList [⟨"live-seg", "Hello", 5, "user", false, "C"⟩]
        ⟨"final-9", "Hello", 9, "user", true, "C"⟩
      = [⟨"live-seg", "Hello", 5, "user", false, "C"⟩,
         ⟨"final-9", "Hello", 9, "user", true, "C"⟩] := by decide

/-- C4 (amended): at most one live-sentinel segment exists in any
maintained sequence (unconditionally on the host, and preservation of the
invariant on the receiver), and the host removes the live entry and appends
the final segment in the same single update.  The receiver, however, does
not remove the live entry when a final segment with a fresh id arrives: the
update is exactly an append, leaving any live entry in place. -/
theorem c4_live_sentinel_maintenance (prev : List TranscriptionSegment)
    (seg : TranscriptionSegment) :
    countLive (hostApplySegment prev seg) ≤ 1 ∧
    (countLive prev ≤ 1 → countLive (handleIncomingSegmentList prev seg) ≤ 1) ∧
    (seg.isFinal = true → seg.id ≠ "live-seg" →
      countLive (hostApplySegment prev seg) = 0 ∧
      (hostApplySegment prev seg).getLast? = some seg) ∧
    (seg.isFinal = true → (∀ s ∈ prev, s.id ≠ seg.id) → prev.length < 50 →
      handleIncomingSegmentList prev seg = prev ++ [seg]) := by
  have hhost0 :
      (prev.filter (fun p => p.id != "live-seg")).countP
        (fun s => s.id == "live-seg") = 0 := by
    rw [List.countP_eq_zero]
    intro a ha
    simpa using (List.mem_filter.mp ha).2
  have hseg1 :
      List.countP (fun s => s.id == "live-seg") [seg] ≤ 1 := by
    by_cases hs : (seg.id == "live-seg") = true <;>
      simp [List.countP_cons, hs]
  refine ⟨?_, ?_, ?_, ?_⟩
  · unfold hostApplySegment countLive
    rw [List.countP_append, hhost0]
    simpa using hseg1
  · intro hprev
    unfold handleIncomingSegmentList lastN countLive at *
    have hdrop :
        List.countP (fun s => s.id == "live-seg")
            (((prev.filter (fun s =>
                s.id != seg.id && (seg.isFinal || s.id != "live-seg")))
              ++ [seg]).drop
              ((((prev.filter (fun s =>
                  s.id != seg.id && (seg.isFinal || s.id != "live-seg")))
                ++ [seg])).length - 50))
          ≤ List.countP (fun s => s.id == "live-seg")
              ((prev.filter (fun s =>
                s.id != seg.id && (seg.isFinal || s.id != "live-seg")))
                ++ [seg]) :=
      (List.drop_sublist _ _).countP_le _
    refine hdrop.trans ?_
    rw [List.countP_append]
    by_cases hid : seg.id = "live-seg"
    · have hfil0 :
          (prev.filter (fun s =>
            s.id != seg.id && (seg.isFinal || s.id != "live-seg"))).countP
              (fun s => s.id == "live-seg") = 0 := by
        rw [List.countP_eq_zero]
        intro a ha
        have h2 := (List.mem_filter.mp ha).2
        rw [Bool.and_eq_true] at h2
        have h3 : a.id ≠ seg.id := by simpa using h2.1
        simp [hid ▸ h3]
      rw [hfil0]
      simpa using hseg1
    · have hseg0 :
          List.countP (fun s => s.id == "live-seg") [seg] = 0 := by
        simp [List.countP_cons, hid]
      rw [hseg0]
      have := ((List.filter_sublist
        (p := fun s =>
          s.id != seg.id && (seg.isFinal || s.id != "live-seg"))
        prev).countP_le (fun s => s.id == "live-seg")).trans hprev
      omega
  · intro hfin hid
    constructor
    · unfold hostApplySegment countLive
      rw [List.countP_append, hhost0]
      simp [List.countP_cons, hid]
    · exact List.getLast?_concat _
  · intro hfin hfresh hlen
    unfold handleIncomingSegmentList lastN
    have hfilter :
        prev.filter (fun s =>
          s.id != seg.id && (seg.isFinal || s.id != "live-seg")) = prev := by
      rw [List.filter_eq_self]
      intro a ha
      simp [hfin, hfresh a ha]
    rw [hfilter]
    have hz : (prev ++ [seg]).length - 50 = 0 := by
      simp only [List.length_append, List.length_cons, List.length_nil]
      omega
    rw [hz, List.drop_zero]

/-- C4 (witness): a concrete list holding one live segment and a fresh
final segment for `c4_live_sentinel_maintenance`. -/
theorem c4_live_sentinel_maintenance_witness :
    countLive (hostApplySegment
        [⟨"live-seg", "Hello", 5, "user", false, "C"⟩]
        ⟨"final-9", "Hello", 9, "user", true, "C"⟩) ≤ 1 ∧
    countLive (handleIncomingSegmentList
        [⟨"live-seg", "Hello", 5, "user", false, "C"⟩]
        ⟨"final-9", "Hello", 9, "user", true, "C"⟩) ≤ 1 ∧
    countLive (hostApplySegment
        [⟨"live-seg", "Hello", 5, "user", false, "C"⟩]
        ⟨"final-9", "Hello", 9, "user", true, "C"⟩) = 0 ∧
    handleIncomingSegmentList
        [⟨"live-seg", "Hello", 5, "user", false, "C"⟩]
        ⟨"final-9", "Hello", 9, "user", true, "C"⟩
      = [⟨"live-seg", "Hello", 5, "user", false, "C"⟩]
        ++ [⟨"final-9", "Hello", 9, "user", true, "C"⟩] :=
  ⟨(c4_live_sentinel_maintenance _ _).1,
   (c4_live_sentinel_maintenance _ _).2.1 (by decide),
   ((c4_live_sentinel_maintenance _ _).2.2.1 (by decide) (by decide)).1,
   (c4_live_sentinel_maintenance _ _).2.2.2 (by decide) (by decide)
     (by decide)⟩

/-- C5: the scheduler computes each buffer's start time as
`max(nextStartTime, clock)` and advances the watermark by the duration;
hence two buffers submitted back-to-back with no decode delay play with no
gap and no overlap: the second starts exactly at the first's start plus the
first's duration, for any positive duration. -/
theorem c5_playback_gapless (p : Player) (c d1 d2 : ℚ) (i1 i2 : Nat)
    (h : 0 < d1) :
    (schedulePlay p c d1 i1).1 = max p.nextStartTime c ∧
    (schedulePlay p c d1 i1).2.nextStartTime
      = (schedulePlay p c d1 i1).1 + d1 ∧
    (schedulePlay (schedulePlay p c d1 i1).2 c d2 i2).1
      = (schedulePlay p c d1 i1).1 + d1 := by
  refine ⟨rfl, rfl, ?_⟩
  show max (max p.nextStartTime c + d1) c = max p.nextStartTime c + d1
  exact max_eq_left ((le_max_right _ c).trans (le_add_of_nonneg_right h.le))

/-- C5 (witness): two buffers of durations 1 and 2 on a cold cursor. -/
theorem c5_playback_gapless_witness :
    (0 : ℚ) < 1 ∧
    ((schedulePlay ⟨0, []⟩ 0 1 4).1 = max (0 : ℚ) 0 ∧
     (schedulePlay ⟨0, []⟩ 0 1 4).2.nextStartTime
        = (schedulePlay ⟨0, []⟩ 0 1 4).1 + 1 ∧
     (schedulePlay (schedulePlay ⟨0, []⟩ 0 1 4).2 0 2 5).1
        = (schedulePlay ⟨0, []⟩ 0 1 4).1 + 1) :=
  ⟨by norm_num, c5_playback_gapless ⟨0, []⟩ 0 1 2 4 5 (by norm_num)⟩

/-- C6: interruption stops every scheduled-but-unfinished source, empties
the live-source set, resets the watermark to 0 (so the next buffer starts
at the current output clock time, not the old watermark), and is
idempotent; stopping is total, so an already-stopped or finished source
raises nothing.  (The handler itself is modelled from the spec, as only its
`sourcesRef` bookkeeping appears in the provided sources.) -/
theorem c6_interrupt_flush (p : Player) (c d : ℚ) (i : Nat) (hc : 0 ≤ c) :
    liveSources (interruptPlay p) = [] ∧
    (interruptPlay p).nextStartTime = 0 ∧
    interruptPlay (interruptPlay p) = interruptPlay p ∧
    (∀ j st, (j, st) ∈ p.sources → st = SrcStatus.scheduled →
      (j, SrcStatus.stopped) ∈ (interruptPlay p).sources) ∧
    (schedulePlay (interruptPlay p) c d i).1 = c := by
  refine ⟨?_, rfl, ?_, ?_, ?_⟩
  · unfold liveSources interruptPlay
    have hnil :
        ((p.sources.map (fun s =>
          if s.2 == SrcStatus.scheduled then (s.1, SrcStatus.stopped)
          else s)).filter (fun s => s.2 == SrcStatus.scheduled)) = [] := by
      rw [List.filter_eq_nil_iff]
      intro a ha
      obtain ⟨b, hb, rfl⟩ := List.mem_map.mp ha
      by_cases hbs : (b.2 == SrcStatus.scheduled) = true <;> simp [hbs]
    rw [hnil]
    rfl
  · simp only [interruptPlay, List.map_map, Player.mk.injEq, true_and]
    apply List.map_congr_left
    intro a ha
    by_cases hbs : (a.2 == SrcStatus.scheduled) = true <;>
      simp [Function.comp, hbs]
  · intro j st hmem hst
    simp only [interruptPlay]
    exact List.mem_map.mpr ⟨(j, st), hmem, by simp [hst]⟩
  · show max (0 : ℚ) c = c
    exact max_eq_right hc

/-- C6 (witness): a cursor at watermark 3 with one scheduled and one
finished source, interrupted and then handed a buffer at clock time 2. -/
theorem c6_interrupt_flush_witness :
    (0 : ℚ) ≤ 2 ∧
    liveSources (interruptPlay
        ⟨3, [(0, SrcStatus.scheduled), (1, SrcStatus.finished)]⟩) = [] ∧
    (interruptPlay
        ⟨3, [(0, SrcStatus.scheduled), (1, SrcStatus.finished)]⟩).nextStartTime
      = 0 ∧
    (schedulePlay (interruptPlay
        ⟨3, [(0, SrcStatus.scheduled), (1, SrcStatus.finished)]⟩) 2 1 9).1
      = 2 :=
  ⟨by norm_num,
   (c6_interrupt_flush
      ⟨3, [(0, SrcStatus.scheduled), (1, SrcStatus.finished)]⟩ 2 1 9
      (by norm_num)).1,
   (c6_interrupt_flush
      ⟨3, [(0, SrcStatus.scheduled), (1, SrcStatus.finished)]⟩ 2 1 9
      (by norm_num)).2.1,
   (c6_interrupt_flush
      ⟨3, [(0, SrcStatus.scheduled), (1, SrcStatus.finished)]⟩ 2 1 9
      (by norm_num)).2.2.2.2⟩

/-- C7 (counterexample): the claim fails as stated.  After queueing `"b"`
behind an in-flight `"a"`, `stopBroadcasting` leaves the pending queue
untouched, and when `"a"`'s audio later finishes, the queued `"b"` is still
dequeued and processed after the stop completed. -/
theorem c7_queue_survives_stop :
    (pipeRun pipeInit
        [PipeEvent.submit "a", PipeEvent.submit "b", PipeEvent.stop]).queue
      = ["b"] ∧
    (pipeRun pipeInit
        [PipeEvent.submit "a", PipeEvent.submit "b", PipeEvent.stop,
         PipeEvent.respond 0 SynthOutcome.audio, PipeEvent.ended 0]).started
      = [("a", 0), ("b", 0)] := by decide

/-- C7 (amended): stopping a session clears all transcript segments, but
leaves the pending TTS queue, the pending backoff timers and the in-flight
request untouched, so queued texts can still be processed afterwards. -/
theorem c7_stop_clears_segments_only (evs : List PipeEvent) :
    (pipeRun pipeInit (evs ++ [PipeEvent.stop])).transcripts = [] ∧
    (pipeRun pipeInit (evs ++ [PipeEvent.stop])).queue
      = (pipeRun pipeInit evs).queue ∧
    (pipeRun pipeInit (evs ++ [PipeEvent.stop])).timers
      = (pipeRun pipeInit evs).timers ∧
    (pipeRun pipeInit (evs ++ [PipeEvent.stop])).inflight
      = (pipeRun pipeInit evs).inflight := by
  simp [pipeRun, List.foldl_append, pipeStep, stopBroadcasting]

/-- C8: the claim is right and the code is wrong.  On a non-quota failure
the unit is indeed abandoned and only logged, but the error handler's
`checkQueue()` runs before the `finally` clears `isProcessingTTS`, so the
dequeued oldest text trips the busy guard and is pushed back to the TAIL
of the queue without being started: after `"a"` fails with a non-quota
error, `"b"` was dequeued and re-enqueued, no synthesis of `"b"` was
issued, and the pipeline is idle with `"b"` stranded in the queue. -/
theorem c8_error_path_stalls :
    pipeRun pipeInit
        [PipeEvent.submit "a", PipeEvent.submit "b",
         PipeEvent.respond 0 SynthOutcome.otherErr]
      = ⟨false, ["b"], [], [], [], 1, [("a", 0)], []⟩ := by decide

/-- C9: after every incoming segment is applied by the receiver, the
maintained transcript sequence has at most 50 segments, and it is a suffix
(the most recent entries) of the filtered sequence with the new segment
appended — the oldest entries beyond 50 are discarded. -/
theorem c9_receiver_window_bounded (prev : List TranscriptionSegment)
    (seg : TranscriptionSegment) :
    (handleIncomingSegmentList prev seg).length ≤ 50 ∧
    List.IsSuffix (handleIncomingSegmentList prev seg)
      ((prev.filter (fun s =>
          s.id != seg.id && (seg.isFinal || s.id != "live-seg")))
        ++ [seg]) := by
  constructor
  · unfold handleIncomingSegmentList lastN
    rw [List.length_drop]
    omega
  · exact List.drop_suffix _ _

/-- C10: if the translation response is missing, empty or whitespace-only,
the original untranslated text is what is handed to the speech-synthesis
call; and a segment whose text is empty or whitespace-only triggers no
translate+speak processing at all — `handleIncomingSegment` only updates
the transcript list. -/
theorem c10_empty_translation_fallback (respText : Option String)
    (orig : String) (s : PipeState) (seg : TranscriptionSegment)
    (hresp : ∀ u, respText = some u → jsTrim u = "")
    (hseg : jsTrim seg.text = "") :
    translatedText respText orig = orig ∧
    handleIncomingSegment s seg
      = { s with
            transcripts := handleIncomingSegmentList s.transcripts seg } := by
  constructor
  · cases respText with
    | none => rfl
    | some u => simp [translatedText, hresp u rfl]
  · unfold handleIncomingSegment
    rw [if_neg]
    intro hc
    exact hc.2 hseg

/-- C10 (witness): a whitespace-only translation response and a
whitespace-only final segment. -/
theorem c10_empty_translation_fallback_witness :
    (jsTrim " " = "") ∧
    translatedText (some "  ") "hi" = "hi" ∧
    handleIncomingSegment pipeInit ⟨"final-1", " ", 1, "user", true, "C"⟩
      = { pipeInit with
            transcripts :=
              handleIncomingSegmentList pipeInit.transcripts
                ⟨"final-1", " ", 1, "user", true, "C"⟩ } :=
  ⟨by decide,
   (c10_empty_translation_fallback (some "  ") "hi" pipeInit
      ⟨"final-1", " ", 1, "user", true, "C"⟩
      (fun u h => by cases h; decide) (by decide)).1,
   (c10_empty_translation_fallback (some "  ") "hi" pipeInit
      ⟨"final-1", " ", 1, "user", true, "C"⟩
      (fun u h => by cases h; decide) (by decide)).2⟩

